import Mathlib

/-!
Shallow embedding of `src/healthcare-notification-system.py`.

The program is a small in-memory notification registry:
* `Notification` records an id, title, content, timestamp and a read flag.
* `NotificationCenter` holds the ordered list of notifications and the
  auto-incrementing `next_id` counter (`add_notification`,
  `get_unread_notifications`, `get_notification_by_id`).
* `HealthcareProviderSystem` wraps a `NotificationCenter` with an optional
  `current_user` and gates `check_notifications` / `view_notification`
  behind login.

Mutation is made explicit: operations that mutate state return the new
state; `datetime.datetime.now()` is modelled as an explicit `now`
argument (an opaque `Int` clock value).  Python truthiness of strings
(`if username and password`, `if not self.current_user`) is modelled by
explicit emptiness checks.
-/

namespace HealthcareNotif

/-- Embeds the Python class `Notification` (fields set in `__init__`). -/
structure Notification where
  notification_id : Int
  title : String
  content : String
  timestamp : Int
  is_read : Bool
deriving Repr, DecidableEq

/-- Embeds `Notification.__init__`: the constructor always sets
`is_read = False`. -/
def Notification.make (notification_id : Int) (title content : String)
    (timestamp : Int) : Notification :=
  { notification_id := notification_id, title := title, content := content,
    timestamp := timestamp, is_read := false }

/-- Embeds the state of the Python class `NotificationCenter`. -/
structure NotificationCenter where
  notifications : List Notification
  next_id : Int
deriving Repr, DecidableEq

/-- Embeds `NotificationCenter.__init__`: empty list, counter starts at 1. -/
def NotificationCenter.init : NotificationCenter :=
  { notifications := [], next_id := 1 }

/-- Embeds `NotificationCenter.add_notification`: build a notification from
the current counter, append it, bump the counter, return it.  `now` stands
for `datetime.datetime.now()`. -/
def NotificationCenter.add_notification (nc : NotificationCenter)
    (title content : String) (now : Int) : Notification × NotificationCenter :=
  let new_notification := Notification.make nc.next_id title content now
  (new_notification,
   { nc with
      notifications := nc.notifications ++ [new_notification],
      next_id := nc.next_id + 1 })

/-- Embeds `NotificationCenter.get_unread_notifications`: the list
comprehension keeping exactly the notifications with `is_read` false. -/
def NotificationCenter.get_unread_notifications (nc : NotificationCenter) :
    List Notification :=
  nc.notifications.filter (fun notification => !notification.is_read)

/-- Embeds `NotificationCenter.get_notification_by_id`: linear scan
returning the first notification with a matching id, else `none`. -/
def NotificationCenter.get_notification_by_id (nc : NotificationCenter)
    (notification_id : Int) : Option Notification :=
  nc.notifications.find?
    (fun notification => notification.notification_id == notification_id)

/-- The in-place mutation `notification.is_read = True` performed by
`view_notification` on the object returned by `get_notification_by_id`:
the first list element with a matching id gets its read flag set. -/
def setReadFirst : List Notification → Int → List Notification
  | [], _ => []
  | n :: ns, i =>
      if n.notification_id == i then { n with is_read := true } :: ns
      else n :: setReadFirst ns i

/-- Embeds the state of the Python class `HealthcareProviderSystem`. -/
structure HealthcareProviderSystem where
  notification_center : NotificationCenter
  current_user : Option String
deriving Repr, DecidableEq

/-- Embeds `HealthcareProviderSystem.__init__`. -/
def HealthcareProviderSystem.init : HealthcareProviderSystem :=
  { notification_center := NotificationCenter.init, current_user := none }

/-- Python truthiness of `self.current_user`: `None` and the empty string
are falsy; a non-empty string is truthy. -/
def userTruthy : Option String → Bool
  | none => false
  | some u => !u.isEmpty

/-- Embeds `HealthcareProviderSystem.login`: `if username and password`
stores the username and returns `True`, otherwise returns `False` with no
state change. -/
def HealthcareProviderSystem.login (s : HealthcareProviderSystem)
    (username password : String) : Bool × HealthcareProviderSystem :=
  if !username.isEmpty && !password.isEmpty then
    (true, { s with current_user := some username })
  else
    (false, s)

/-- Embeds `HealthcareProviderSystem.check_notifications`: `[]` when not
logged in, otherwise the store's unread notifications.  The Python method
mutates nothing, so it is a pure function of the state. -/
def HealthcareProviderSystem.check_notifications
    (s : HealthcareProviderSystem) : List Notification :=
  if userTruthy s.current_user then
    s.notification_center.get_unread_notifications
  else
    []

/-- Embeds `HealthcareProviderSystem.view_notification`: `None` when not
logged in; otherwise look up by id, and on a hit set the stored object's
read flag and return that (now read) notification. -/
def HealthcareProviderSystem.view_notification (s : HealthcareProviderSystem)
    (notification_id : Int) : Option Notification × HealthcareProviderSystem :=
  if userTruthy s.current_user then
    match s.notification_center.get_notification_by_id notification_id with
    | some notification =>
        (some { notification with is_read := true },
         { s with
            notification_center :=
              { s.notification_center with
                 notifications :=
                   setReadFirst s.notification_center.notifications
                     notification_id } })
    | none => (none, s)
  else
    (none, s)

/-- One call of the public API, with its text/clock inputs. -/
inductive Op where
  | create (title content : String) (now : Int)
  | listUnread
  | findById (id : Int)
  | login (username password : String)
  | checkNotifications
  | viewNotification (id : Int)
deriving Repr, DecidableEq

/-- The state transition of one API call (return values dropped). -/
def step (s : HealthcareProviderSystem) : Op → HealthcareProviderSystem
  | .create t c now =>
      { s with
         notification_center := (s.notification_center.add_notification t c now).2 }
  | .listUnread => s
  | .findById _ => s
  | .login u p => (s.login u p).2
  | .checkNotifications => s
  | .viewNotification i => (s.view_notification i).2

/-- States reachable from a freshly constructed system by API calls. -/
inductive Reachable : HealthcareProviderSystem → Prop where
  | init : Reachable HealthcareProviderSystem.init
  | step {s : HealthcareProviderSystem} (op : Op) :
      Reachable s → Reachable (step s op)

/-- Run a sequence of API calls and collect, in call order, the ids of the
notifications returned by the `create` calls. -/
def runCreatedIds (s : HealthcareProviderSystem) : List Op → List Int
  | [] => []
  | Op.create t c now :: ops =>
      (s.notification_center.add_notification t c now).1.notification_id ::
        runCreatedIds (step s (Op.create t c now)) ops
  | op :: ops => runCreatedIds (step s op) ops

/-- Number of `create` calls in a sequence of API calls. -/
def countCreates : List Op → Nat
  | [] => 0
  | Op.create _ _ _ :: ops => countCreates ops + 1
  | _ :: ops => countCreates ops

/-- The list `[k, k+1, …, k+n-1]` of `n` consecutive integers. -/
def intRange (k : Int) (n : Nat) : List Int :=
  (List.range n).map (fun i => k + Int.ofNat i)

/-- A concrete state used to instantiate reachability hypotheses: one
notification created, then a successful login. -/
def sampleLoggedIn : HealthcareProviderSystem :=
  step (step HealthcareProviderSystem.init (Op.create "a" "b" 0))
    (Op.login "x" "y")

/-! ### Helper lemmas about `setReadFirst` -/

theorem setReadFirst_length (l : List Notification) (i : Int) :
    (setReadFirst l i).length = l.length := by
  induction l with
  | nil => rfl
  | cons n ns ih =>
      simp only [setReadFirst]
      split <;> simp [ih]

theorem setReadFirst_map_id (l : List Notification) (i : Int) :
    (setReadFirst l i).map (fun n => n.notification_id)
      = l.map (fun n => n.notification_id) := by
  induction l with
  | nil => rfl
  | cons n ns ih =>
      simp only [setReadFirst]
      split <;> simp [ih]

theorem setReadFirst_getElem? (l : List Notification) (i : Int) (j : Nat) :
    (setReadFirst l i)[j]? = l[j]? ∨
    (setReadFirst l i)[j]? = (l[j]?).map (fun n => { n with is_read := true }) := by
  induction l generalizing j with
  | nil => left; rfl
  | cons n ns ih =>
      simp only [setReadFirst]
      split
      · cases j with
        | zero => right; simp
        | succ j => left; simp [List.getElem?_cons_succ]
      · cases j with
        | zero => left; simp
        | succ j => simpa [List.getElem?_cons_succ] using ih j

theorem find?_setReadFirst_self (l : List Notification) (i : Int)
    (m : Notification)
    (h : l.find? (fun n => n.notification_id == i) = some m) :
    (setReadFirst l i).find? (fun n => n.notification_id == i)
      = some { m with is_read := true } := by
  induction l with
  | nil => simp at h
  | cons n ns ih =>
      by_cases hn : (n.notification_id == i) = true
      · rw [List.find?_cons_of_pos (p := fun (x : Notification) => x.notification_id == i) _ hn] at h
        injection h with h
        subst h
        simp only [setReadFirst, if_pos hn]
        exact List.find?_cons_of_pos (p := fun (x : Notification) => x.notification_id == i) _ hn
      · rw [List.find?_cons_of_neg (p := fun (x : Notification) => x.notification_id == i) _ hn] at h
        simp only [setReadFirst, if_neg hn]
        rw [List.find?_cons_of_neg (p := fun (x : Notification) => x.notification_id == i) _ hn]
        exact ih h

theorem find?_setReadFirst_ne (l : List Notification) (i j : Int)
    (hij : j ≠ i) :
    (setReadFirst l i).find? (fun n => n.notification_id == j)
      = l.find? (fun n => n.notification_id == j) := by
  induction l with
  | nil => rfl
  | cons n ns ih =>
      by_cases hn : (n.notification_id == i) = true
      · have hid : n.notification_id = i := eq_of_beq hn
        have hj : ¬((n.notification_id == j) = true) := by
          rw [beq_iff_eq, hid]
          exact fun h => hij h.symm
        simp only [setReadFirst, if_pos hn]
        rw [List.find?_cons_of_neg (a := { n with is_read := true })
            (p := fun (x : Notification) => x.notification_id == j) _ hj,
          List.find?_cons_of_neg (p := fun (x : Notification) => x.notification_id == j) _ hj]
      · simp only [setReadFirst, if_neg hn]
        by_cases hj : (n.notification_id == j) = true
        · rw [List.find?_cons_of_pos (p := fun (x : Notification) => x.notification_id == j) _ hj,
            List.find?_cons_of_pos (p := fun (x : Notification) => x.notification_id == j) _ hj]
        · rw [List.find?_cons_of_neg (p := fun (x : Notification) => x.notification_id == j) _ hj,
            List.find?_cons_of_neg (p := fun (x : Notification) => x.notification_id == j) _ hj]
          exact ih

theorem setReadFirst_idem (l : List Notification) (i : Int) :
    setReadFirst (setReadFirst l i) i = setReadFirst l i := by
  induction l with
  | nil => rfl
  | cons n ns ih =>
      by_cases hn : (n.notification_id == i) = true
      · simp only [setReadFirst, if_pos hn]
      · simp only [setReadFirst, if_neg hn, ih]

/-! ### Helper lemmas about `intRange` -/

theorem intRange_succ (k : Int) (n : Nat) :
    intRange k (n + 1) = intRange k n ++ [k + n] := by
  simp [intRange, List.range_succ]

theorem intRange_getElem? (k : Int) (n j : Nat) (hj : j < n) :
    (intRange k n)[j]? = some (k + j) := by
  unfold intRange
  rw [List.getElem?_map, List.getElem?_range hj]
  rfl

theorem intRange_pairwise (k : Int) (n : Nat) :
    List.Pairwise (fun a b => a < b) (intRange k n) := by
  unfold intRange
  refine List.Pairwise.map _ (fun a b hab => ?_) (List.pairwise_lt_range n)
  simp only [Int.ofNat_eq_natCast]
  omega

/-! ### State invariants -/

/-- Any stored current user is a non-empty string (so Python truthiness of
`current_user` coincides with `Option.isSome`). -/
def UserOk (s : HealthcareProviderSystem) : Prop :=
  ∀ u, s.current_user = some u → u ≠ ""

/-- The stored ids are exactly `1..length` in order, and the counter is one
past the number of stored notifications. -/
def IdsOk (nc : NotificationCenter) : Prop :=
  nc.notifications.map (fun n => n.notification_id)
      = intRange 1 nc.notifications.length ∧
  nc.next_id = nc.notifications.length + 1

theorem userTruthy_of_some {s : HealthcareProviderSystem} (h : UserOk s)
    {u : String} (hu : s.current_user = some u) :
    userTruthy s.current_user = true := by
  rw [hu]
  show (!u.isEmpty) = true
  cases hs : u.isEmpty
  · rfl
  · exact absurd ((String.isEmpty_iff u).mp hs) (h u hu)

theorem step_userOk {s : HealthcareProviderSystem} (h : UserOk s) (op : Op) :
    UserOk (step s op) := by
  cases op with
  | create t c now => exact h
  | listUnread => exact h
  | findById i => exact h
  | checkNotifications => exact h
  | login u p =>
      intro v hv
      simp only [step, HealthcareProviderSystem.login] at hv
      split at hv
      · next hcond =>
          simp only at hv
          injection hv with hv
          subst hv
          intro he
          subst he
          rw [Bool.and_eq_true] at hcond
          exact absurd hcond.1 (by decide)
      · exact h v hv
  | viewNotification i =>
      intro v hv
      apply h v
      rw [← hv]
      simp only [step, HealthcareProviderSystem.view_notification]
      split
      · split <;> rfl
      · rfl

theorem add_notification_idsOk {nc : NotificationCenter}
    (h : IdsOk nc) (t c : String) (now : Int) :
    IdsOk (nc.add_notification t c now).2 := by
  obtain ⟨hmap, hnext⟩ := h
  constructor
  · simp only [NotificationCenter.add_notification, Notification.make,
      List.map_append, List.length_append, List.map_cons, List.map_nil,
      List.length_cons, List.length_nil, hmap, hnext]
    rw [intRange_succ]
    congr 2
    omega
  · simp only [NotificationCenter.add_notification, List.length_append,
      List.length_cons, List.length_nil, hnext]
    push_cast
    omega

theorem setReadFirst_idsOk {nc : NotificationCenter} (h : IdsOk nc)
    (i : Int) :
    IdsOk { nc with notifications := setReadFirst nc.notifications i } := by
  obtain ⟨hmap, hnext⟩ := h
  constructor
  · simp only [setReadFirst_map_id, setReadFirst_length]
    exact hmap
  · simp only [setReadFirst_length]
    exact hnext

theorem step_idsOk {s : HealthcareProviderSystem}
    (h : IdsOk s.notification_center) (op : Op) :
    IdsOk (step s op).notification_center := by
  cases op with
  | create t c now => exact add_notification_idsOk h t c now
  | listUnread => exact h
  | findById i => exact h
  | checkNotifications => exact h
  | login u p =>
      simp only [step, HealthcareProviderSystem.login]
      split <;> exact h
  | viewNotification i =>
      simp only [step, HealthcareProviderSystem.view_notification]
      split
      · split
        · exact setReadFirst_idsOk h i
        · exact h
      · exact h

/-! ### The id counter across API calls -/

theorem intRange_cons (k : Int) (n : Nat) :
    intRange k (n + 1) = k :: intRange (k + 1) n := by
  unfold intRange
  rw [List.range_succ_eq_map]
  simp only [List.map_cons, List.map_map]
  congr 1
  · simp
  · apply List.map_congr_left
    intro a _
    simp only [Function.comp_apply, Int.ofNat_eq_natCast, Nat.succ_eq_add_one]
    push_cast
    ring

theorem login_notification_center (s : HealthcareProviderSystem)
    (u p : String) :
    (s.login u p).2.notification_center = s.notification_center := by
  unfold HealthcareProviderSystem.login
  split <;> rfl

theorem view_notification_next_id (s : HealthcareProviderSystem) (i : Int) :
    (s.view_notification i).2.notification_center.next_id
      = s.notification_center.next_id := by
  unfold HealthcareProviderSystem.view_notification
  split
  · split <;> rfl
  · rfl

theorem runCreatedIds_eq (ops : List Op) (s : HealthcareProviderSystem) :
    runCreatedIds s ops
      = intRange s.notification_center.next_id (countCreates ops) := by
  induction ops generalizing s with
  | nil => rfl
  | cons op ops ih =>
      cases op with
      | create t c now =>
          simp only [runCreatedIds, countCreates, ih]
          rw [intRange_cons]
          rfl
      | listUnread => simp only [runCreatedIds, countCreates, ih]; rfl
      | findById i => simp only [runCreatedIds, countCreates, ih]; rfl
      | checkNotifications => simp only [runCreatedIds, countCreates, ih]; rfl
      | login u p =>
          simp only [runCreatedIds, countCreates, ih, step]
          rw [login_notification_center]
      | viewNotification i =>
          simp only [runCreatedIds, countCreates, ih, step]
          rw [view_notification_next_id]

theorem Reachable.userOk {s : HealthcareProviderSystem}
    (h : Reachable s) : UserOk s := by
  induction h with
  | init =>
      intro u hu
      simp [HealthcareProviderSystem.init] at hu
  | step op _ ih => exact step_userOk ih op

theorem Reachable.idsOk {s : HealthcareProviderSystem}
    (h : Reachable s) : IdsOk s.notification_center := by
  induction h with
  | init => exact ⟨rfl, rfl⟩
  | step op _ ih => exact step_idsOk ih op

theorem sampleLoggedIn_reachable : Reachable sampleLoggedIn :=
  Reachable.step _ (Reachable.step _ Reachable.init)

/-! ### The claims -/

/-- C1: on a freshly constructed system, across any sequence of API calls,
the ids of the notifications returned by the `create` (`add_notification`)
calls are, in call order, exactly `1..N` where `N` is the number of
`create` calls — strictly increasing, unique and without gaps — whether or
not other operations are interleaved. -/
theorem C1_created_ids_exactly_one_to_N (ops : List Op) :
    runCreatedIds HealthcareProviderSystem.init ops
      = intRange 1 (countCreates ops) ∧
    List.Pairwise (fun a b => a < b)
      (runCreatedIds HealthcareProviderSystem.init ops) := by
  constructor
  · exact runCreatedIds_eq ops _
  · rw [runCreatedIds_eq]
    exact intRange_pairwise _ _

/-- C4: `login` returns `true` and records the username as current user
exactly when both username and password are non-empty; with an empty
username or password it returns `false` and leaves the whole state
unchanged. -/
theorem C4_login_iff_nonempty (s : HealthcareProviderSystem)
    (username password : String) :
    (((s.login username password).1 = true ∧
        (s.login username password).2.current_user = some username) ↔
      (username ≠ "" ∧ password ≠ "")) ∧
    ((username = "" ∨ password = "") →
      s.login username password = (false, s)) ∧
    ((username ≠ "" ∧ password ≠ "") →
      s.login username password
        = (true, { s with current_user := some username })) := by
  have hchar : ∀ u : String, u ≠ "" → (!u.isEmpty) = true := by
    intro u h
    cases he : u.isEmpty
    · rfl
    · exact absurd ((String.isEmpty_iff u).mp he) h
  by_cases hu : username = ""
  · have hue : (!username.isEmpty) = false := by
      subst hu
      decide
    have hcond : (!username.isEmpty && !password.isEmpty) = false := by
      rw [hue]
      exact Bool.false_and _
    have hlogin : s.login username password = (false, s) := by
      unfold HealthcareProviderSystem.login
      split
      · next h => rw [hcond] at h; exact absurd h (by simp)
      · rfl
    refine ⟨?_, fun _ => hlogin, fun hne => absurd hu hne.1⟩
    constructor
    · intro hy
      rw [hlogin] at hy
      exact absurd hy.1 (by simp)
    · intro hy
      exact absurd hu hy.1
  · by_cases hp : password = ""
    · have hpe : (!password.isEmpty) = false := by
        subst hp
        decide
      have hcond : (!username.isEmpty && !password.isEmpty) = false := by
        rw [hpe]
        exact Bool.and_false _
      have hlogin : s.login username password = (false, s) := by
        unfold HealthcareProviderSystem.login
        split
        · next h => rw [hcond] at h; exact absurd h (by simp)
        · rfl
      refine ⟨?_, fun _ => hlogin, fun hne => absurd hp hne.2⟩
      constructor
      · intro hy
        rw [hlogin] at hy
        exact absurd hy.1 (by simp)
      · intro hy
        exact absurd hp hy.2
    · have hcond : (!username.isEmpty && !password.isEmpty) = true := by
        rw [hchar username hu, hchar password hp]
        rfl
      have hlogin : s.login username password
          = (true, { s with current_user := some username }) := by
        unfold HealthcareProviderSystem.login
        split
        · rfl
        · next h => exact absurd hcond h
      refine ⟨?_, ?_, fun _ => hlogin⟩
      · refine iff_of_true ?_ ⟨hu, hp⟩
        rw [hlogin]
        exact ⟨rfl, rfl⟩
      · rintro (h | h)
        · exact absurd h hu
        · exact absurd h hp

/-- C5: `get_unread_notifications` returns exactly the subsequence of the
stored notifications whose read flag is false, in stored (creation)
order: it is a sublist of the stored sequence, contains only unread
notifications, contains every unread stored notification, and is empty
whenever every stored notification is read (in particular on an empty
store).  It is a pure function of the store. -/
theorem C5_get_unread_exact (nc : NotificationCenter) :
    (nc.get_unread_notifications).Sublist nc.notifications ∧
    (∀ n ∈ nc.get_unread_notifications, n.is_read = false) ∧
    (∀ n ∈ nc.notifications, n.is_read = false →
      n ∈ nc.get_unread_notifications) ∧
    ((∀ n ∈ nc.notifications, n.is_read = true) →
      nc.get_unread_notifications = []) := by
  unfold NotificationCenter.get_unread_notifications
  refine ⟨List.filter_sublist _, ?_, ?_, ?_⟩
  · intro n hn
    have h := (List.mem_filter.mp hn).2
    simpa using h
  · intro n hn hr
    exact List.mem_filter.mpr ⟨hn, by simp [hr]⟩
  · intro h
    rw [List.filter_eq_nil_iff]
    intro n hn
    simp [h n hn]

/-- C6: `get_notification_by_id` returns a stored notification carrying
the requested id whenever one is stored, and returns `none` exactly when
no stored notification has that id.  It is a pure function of the
store. -/
theorem C6_get_by_id_spec (nc : NotificationCenter) (i : Int) :
    (∀ n, nc.get_notification_by_id i = some n →
      n ∈ nc.notifications ∧ n.notification_id = i) ∧
    ((∃ n ∈ nc.notifications, n.notification_id = i) →
      ∃ n, nc.get_notification_by_id i = some n ∧ n.notification_id = i) ∧
    (nc.get_notification_by_id i = none ↔
      ∀ n ∈ nc.notifications, n.notification_id ≠ i) := by
  unfold NotificationCenter.get_notification_by_id
  refine ⟨?_, ?_, ?_⟩
  · intro n hn
    refine ⟨List.mem_of_find?_eq_some hn, ?_⟩
    have hp := List.find?_some
      (p := fun (m : Notification) => m.notification_id == i) hn
    exact eq_of_beq hp
  · rintro ⟨n, hn, hid⟩
    have hsome : (nc.notifications.find?
        (fun (m : Notification) => m.notification_id == i)).isSome := by
      rw [List.find?_isSome]
      exact ⟨n, hn, by simp [hid]⟩
    obtain ⟨m, hm⟩ := Option.isSome_iff_exists.mp hsome
    refine ⟨m, hm, ?_⟩
    have hp := List.find?_some
      (p := fun (m : Notification) => m.notification_id == i) hm
    exact eq_of_beq hp
  · rw [List.find?_eq_none]
    constructor
    · intro h n hn
      have hh := h n hn
      simpa using hh
    · intro h n hn
      simp [h n hn]

/-- C7: `add_notification` always succeeds, for any store state and any
strings (empty ones included): the returned notification carries the
current counter value as id, the given title and content, the supplied
clock value and read flag `false`; the new store is the old sequence with
that notification appended at the end, and the counter is bumped by
one. -/
theorem C7_add_notification_spec (nc : NotificationCenter)
    (title content : String) (now : Int) :
    ((nc.add_notification title content now).1.notification_id
        = nc.next_id) ∧
    ((nc.add_notification title content now).1.title = title) ∧
    ((nc.add_notification title content now).1.content = content) ∧
    ((nc.add_notification title content now).1.timestamp = now) ∧
    ((nc.add_notification title content now).1.is_read = false) ∧
    ((nc.add_notification title content now).2.notifications
      = nc.notifications ++ [(nc.add_notification title content now).1]) ∧
    ((nc.add_notification title content now).2.next_id = nc.next_id + 1) :=
  ⟨rfl, rfl, rfl, rfl, rfl, rfl, rfl⟩

/-- C2: in any reachable gateway state, `view_notification` returns `none`
and changes nothing when no user is logged in, regardless of store
contents; when a user is logged in and a notification with the requested
id is stored, it marks that stored notification read in place (other ids
and the rest of the state untouched) and returns it with read flag true;
when no stored notification has the id, it returns `none` and changes
nothing. -/
theorem C2_view_notification_spec (s : HealthcareProviderSystem)
    (hs : Reachable s) (i : Int) :
    (s.current_user = none → s.view_notification i = (none, s)) ∧
    (s.current_user.isSome →
      ((∀ n, s.notification_center.get_notification_by_id i = some n →
          (s.view_notification i).1 = some { n with is_read := true } ∧
          (s.view_notification i).2.notification_center.get_notification_by_id i
            = some { n with is_read := true } ∧
          (∀ j, j ≠ i →
            (s.view_notification i).2.notification_center.get_notification_by_id j
              = s.notification_center.get_notification_by_id j) ∧
          (s.view_notification i).2.current_user = s.current_user ∧
          (s.view_notification i).2.notification_center.next_id
            = s.notification_center.next_id) ∧
        (s.notification_center.get_notification_by_id i = none →
          s.view_notification i = (none, s)))) := by
  constructor
  · intro h
    unfold HealthcareProviderSystem.view_notification
    rw [h]
    rfl
  · intro hsome
    obtain ⟨u, hu⟩ := Option.isSome_iff_exists.mp hsome
    have htru : userTruthy s.current_user = true :=
      userTruthy_of_some hs.userOk hu
    constructor
    · intro n hn
      have hview : s.view_notification i
          = (some { n with is_read := true },
             { s with
                notification_center :=
                  { s.notification_center with
                     notifications :=
                       setReadFirst s.notification_center.notifications i } }) := by
        unfold HealthcareProviderSystem.view_notification
        rw [htru, hn]
        rfl
      refine ⟨?_, ?_, ?_, ?_, ?_⟩
      · rw [hview]
      · rw [hview]
        exact find?_setReadFirst_self _ i n hn
      · intro j hj
        rw [hview]
        exact find?_setReadFirst_ne _ i j hj
      · rw [hview]
      · rw [hview]
    · intro hn
      unfold HealthcareProviderSystem.view_notification
      rw [htru, hn]
      rfl

/-- Witness for C2: in the concrete logged-in state, viewing the stored
notification with id 1 returns it with its read flag set. -/
theorem C2_witness :
    (sampleLoggedIn.view_notification 1).1
      = some ⟨1, "a", "b", 0, true⟩ := by
  have h := ((C2_view_notification_spec sampleLoggedIn
      sampleLoggedIn_reachable 1).2 (by rfl)).1 ⟨1, "a", "b", 0, false⟩ rfl
  exact h.1

/-- C3: in any reachable gateway state, `check_notifications` returns the
empty list when no user is logged in, regardless of store contents; when a
user is logged in it returns exactly the stored notifications whose read
flag is false, in creation order, and it modifies no state. -/
theorem C3_check_notifications_spec (s : HealthcareProviderSystem)
    (hs : Reachable s) :
    (s.current_user = none → s.check_notifications = []) ∧
    (s.current_user.isSome →
      s.check_notifications
        = s.notification_center.notifications.filter
            (fun n => n.is_read == false)) ∧
    step s Op.checkNotifications = s := by
  refine ⟨?_, ?_, rfl⟩
  · intro h
    unfold HealthcareProviderSystem.check_notifications
    rw [h]
    rfl
  · intro hsome
    obtain ⟨u, hu⟩ := Option.isSome_iff_exists.mp hsome
    have htru : userTruthy s.current_user = true :=
      userTruthy_of_some hs.userOk hu
    unfold HealthcareProviderSystem.check_notifications
    rw [htru]
    show s.notification_center.get_unread_notifications = _
    unfold NotificationCenter.get_unread_notifications
    apply List.filter_congr
    intro n _
    cases n.is_read <;> rfl

/-- Witness for C3: in the concrete logged-in state with one unread
notification, checking returns exactly that notification. -/
theorem C3_witness :
    sampleLoggedIn.check_notifications
      = sampleLoggedIn.notification_center.notifications.filter
          (fun n => n.is_read == false) :=
  (C3_check_notifications_spec sampleLoggedIn
    sampleLoggedIn_reachable).2.1 (by rfl)

/-- C8: across every operation of the public API, a stored notification's
read flag never moves from true back to false: a position holding a read
notification keeps a notification with the same id and read flag true. -/
theorem C8_read_flag_monotone (s : HealthcareProviderSystem) (op : Op)
    (i : Nat) (n : Notification)
    (hn : s.notification_center.notifications[i]? = some n)
    (hr : n.is_read = true) :
    ∃ m, (step s op).notification_center.notifications[i]? = some m ∧
      m.notification_id = n.notification_id ∧ m.is_read = true := by
  cases op with
  | create t c now =>
      refine ⟨n, ?_, rfl, hr⟩
      show (s.notification_center.notifications ++ [_])[i]? = some n
      rw [List.getElem?_append_left (List.getElem?_eq_some_iff.mp hn).1]
      exact hn
  | listUnread => exact ⟨n, hn, rfl, hr⟩
  | findById j => exact ⟨n, hn, rfl, hr⟩
  | checkNotifications => exact ⟨n, hn, rfl, hr⟩
  | login u p =>
      refine ⟨n, ?_, rfl, hr⟩
      show (s.login u p).2.notification_center.notifications[i]? = some n
      rw [login_notification_center]
      exact hn
  | viewNotification j =>
      show ∃ m,
        (s.view_notification j).2.notification_center.notifications[i]?
          = some m ∧ m.notification_id = n.notification_id ∧ m.is_read = true
      unfold HealthcareProviderSystem.view_notification
      split
      · split
        · rcases setReadFirst_getElem? s.notification_center.notifications j i
            with h | h
          · refine ⟨n, ?_, rfl, hr⟩
            rw [h]
            exact hn
          · refine ⟨{ n with is_read := true }, ?_, rfl, rfl⟩
            rw [h, hn]
            rfl
        · exact ⟨n, hn, rfl, hr⟩
      · exact ⟨n, hn, rfl, hr⟩

/-- Witness for C8: viewing a notification that is already read keeps the
stored entry read. -/
theorem C8_witness :
    ∃ m, (step ⟨⟨[⟨1, "t", "c", 0, true⟩], 2⟩, some "u"⟩
        (Op.viewNotification 1)).notification_center.notifications[0]?
      = some m ∧ m.notification_id = (1 : Int) ∧ m.is_read = true :=
  C8_read_flag_monotone ⟨⟨[⟨1, "t", "c", 0, true⟩], 2⟩, some "u"⟩
    (Op.viewNotification 1) 0 ⟨1, "t", "c", 0, true⟩ rfl rfl

/-- C9: for a logged-in reachable state and a stored id, viewing twice in
succession returns the same (read) notification both times, the second
view does not change the state further, and the stored read flag ends up
true. -/
theorem C9_view_notification_idempotent (s : HealthcareProviderSystem)
    (hs : Reachable s) (u : String) (hu : s.current_user = some u)
    (i : Int) (n : Notification)
    (hn : s.notification_center.get_notification_by_id i = some n) :
    (s.view_notification i).1 = some { n with is_read := true } ∧
    ((s.view_notification i).2.view_notification i).1
      = some { n with is_read := true } ∧
    ((s.view_notification i).2.view_notification i).2
      = (s.view_notification i).2 ∧
    (s.view_notification i).2.notification_center.get_notification_by_id i
      = some { n with is_read := true } := by
  have htru : userTruthy s.current_user = true :=
    userTruthy_of_some hs.userOk hu
  have hview : s.view_notification i
      = (some { n with is_read := true },
         { s with
            notification_center :=
              { s.notification_center with
                 notifications :=
                   setReadFirst s.notification_center.notifications i } }) := by
    unfold HealthcareProviderSystem.view_notification
    rw [htru, hn]
    rfl
  have hn1 : ({ s.notification_center with
      notifications := setReadFirst s.notification_center.notifications i }
        : NotificationCenter).get_notification_by_id i
      = some { n with is_read := true } :=
    find?_setReadFirst_self _ i n hn
  have hview1 : ({ s with
      notification_center :=
        { s.notification_center with
           notifications :=
             setReadFirst s.notification_center.notifications i } }
        : HealthcareProviderSystem).view_notification i
      = (some { n with is_read := true },
         { s with
            notification_center :=
              { s.notification_center with
                 notifications :=
                   setReadFirst
                     (setReadFirst s.notification_center.notifications i)
                     i } }) := by
    unfold HealthcareProviderSystem.view_notification
    dsimp only
    rw [htru, hn1]
    rfl
  refine ⟨?_, ?_, ?_, ?_⟩
  · rw [hview]
  · simp only [hview, hview1]
  · simp only [hview, hview1, setReadFirst_idem]
  · simp only [hview]
    exact hn1

/-- Witness for C9: in the concrete logged-in state, two successive views
of notification 1 both return it read and the second changes nothing. -/
theorem C9_witness :
    (sampleLoggedIn.view_notification 1).1
        = some ⟨1, "a", "b", 0, true⟩ ∧
    ((sampleLoggedIn.view_notification 1).2.view_notification 1).1
        = some ⟨1, "a", "b", 0, true⟩ ∧
    ((sampleLoggedIn.view_notification 1).2.view_notification 1).2
        = (sampleLoggedIn.view_notification 1).2 ∧
    (sampleLoggedIn.view_notification 1).2.notification_center.get_notification_by_id 1
        = some ⟨1, "a", "b", 0, true⟩ :=
  C9_view_notification_idempotent sampleLoggedIn sampleLoggedIn_reachable
    "x" rfl 1 ⟨1, "a", "b", 0, false⟩ rfl

/-- C10: in every reachable state, the next-id counter equals the number
of stored notifications plus one, and the notification stored at 0-based
position `i` carries identifier `i + 1`; every API operation preserves
this. -/
theorem C10_counter_invariant (s : HealthcareProviderSystem)
    (hs : Reachable s) :
    s.notification_center.next_id
      = s.notification_center.notifications.length + 1 ∧
    ∀ (i : Nat) (n : Notification),
      s.notification_center.notifications[i]? = some n →
      n.notification_id = i + 1 := by
  obtain ⟨hmap, hnext⟩ := hs.idsOk
  refine ⟨hnext, ?_⟩
  intro i n hn
  have hlen : i < s.notification_center.notifications.length :=
    (List.getElem?_eq_some_iff.mp hn).1
  have h1 : (s.notification_center.notifications.map
      (fun n => n.notification_id))[i]? = some n.notification_id := by
    rw [List.getElem?_map, hn]
    rfl
  rw [hmap, intRange_getElem? 1 _ i hlen] at h1
  injection h1 with h1
  omega

/-- Witness for C10 at the concrete reachable logged-in state. -/
theorem C10_witness :
    sampleLoggedIn.notification_center.next_id
      = sampleLoggedIn.notification_center.notifications.length + 1 ∧
    ∀ (i : Nat) (n : Notification),
      sampleLoggedIn.notification_center.notifications[i]? = some n →
      n.notification_id = i + 1 :=
  C10_counter_invariant sampleLoggedIn sampleLoggedIn_reachable

end HealthcareNotif
